import Mathlib

/-!
# Verification of the `vite-plugin-wordpress-alias` rewriting core

This file gives a shallow embedding of `src/vite-plugin-wordpress-alias.js`:
the `transformAliases` function together with its pattern passes
(`srcPatterns`, `aliasRegexes`, `jsPatterns`, `aliasJsPatterns`) and the
alias-normalization step (`aliasPatterns`, lines 75-78 of the source).

The JavaScript regexes are embedded via a small backtracking matcher over an
explicit regex-item AST (`RItem`).  Every quantifier in the source regexes is
a `+` or `*` over a single-character class, and every alternation is an
ordered alternation of literals, so the AST below covers the source patterns
exactly.  The matcher explores alternatives depth-first, longest-first
(greedy), which is the semantics of the JavaScript backtracking engine, and
`replaceGlobal` mirrors `String.prototype.replace` with a `/g` regex:
leftmost match, replacement text not rescanned, search resumes at the end of
each match.
-/

/-- Double-quote character. -/
def dqChar : Char := '"'

/-- Single-quote character (code point 39). -/
def sqChar : Char := Char.ofNat 39

/-- Backslash character. -/
def bsChar : Char := '\\'

/-- One-character string holding a single quote. -/
def sqS : String := String.mk [sqChar]

/-- JavaScript `\s` whitespace class (ECMA-262 WhiteSpace ∪ LineTerminator). -/
def jsWs (c : Char) : Bool :=
  c == ' ' || c == '\t' || c == '\n' || c == '\r' || c == '\x0b' || c == '\x0c' ||
  c == '\u00A0' || c == '\u1680' || ('\u2000' ≤ c && c ≤ '\u200A') ||
  c == '\u2028' || c == '\u2029' || c == '\u202F' || c == '\u205F' ||
  c == '\u3000' || c == '\uFEFF'

/-- JavaScript `.` (any char except a line terminator; no `s` flag in source). -/
def jsDot (c : Char) : Bool :=
  !(c == '\n' || c == '\r' || c == '\u2028' || c == '\u2029')

/-- The `["']` character class of the source regexes. -/
def quoteP (c : Char) : Bool := c == dqChar || c == sqChar

/-- The `[^"']` character class. -/
def nonQuoteP (c : Char) : Bool := !(quoteP c)

/-- The `[^"'\\]` character class (escaped-quote CSS pattern). -/
def escPathP (c : Char) : Bool := !(quoteP c || c == bsChar)

/-- The `[^)]` character class (unquoted `url(...)` patterns). -/
def nonParenP (c : Char) : Bool := !(c == ')')

/-- Regex item: each source regex is a sequence of these.  `lit` is a literal
string (regex-special characters in alias tokens are escaped by the source
before embedding, so alias tokens always match literally); `cls` is a
single-character class; `plus`/`star` are greedy quantifiers over a
single-character class; `alts` is an ordered alternation of literals. -/
inductive RItem where
  | lit : List Char → RItem
  | cls : (Char → Bool) → RItem
  | plus : (Char → Bool) → RItem
  | star : (Char → Bool) → RItem
  | alts : List (List Char) → RItem

/-- A backtracking thread: remaining items, remaining input, and the text
consumed so far, one piece per already-matched item. -/
structure Thread where
  items : List RItem
  rest : List Char
  groups : List (List Char)

/-- Expand the first item of a thread into the ordered list of successor
threads.  Greedy quantifiers produce their alternatives longest-first; ordered
alternations preserve source order, exactly as JavaScript backtracking does. -/
def expand (item : RItem) (items : List RItem) (rest : List Char)
    (groups : List (List Char)) : List Thread :=
  match item with
  | .lit l =>
    if l.isPrefixOf rest then [⟨items, rest.drop l.length, groups ++ [l]⟩] else []
  | .cls p =>
    match rest with
    | [] => []
    | c :: r => if p c then [⟨items, r, groups ++ [[c]]⟩] else []
  | .plus p =>
    let m := (rest.takeWhile p).length
    (List.range m).map (fun i => ⟨items, rest.drop (m - i), groups ++ [rest.take (m - i)]⟩)
  | .star p =>
    let m := (rest.takeWhile p).length
    (List.range (m + 1)).map (fun i => ⟨items, rest.drop (m - i), groups ++ [rest.take (m - i)]⟩)
  | .alts ls =>
    ls.filterMap (fun l =>
      if l.isPrefixOf rest then some ⟨items, rest.drop l.length, groups ++ [l]⟩ else none)

/-- Depth-first backtracking search over a stack of threads.  Returns the
pieces of consumed text (one per regex item) and the remaining suffix of the
first (in backtracking order) complete match. -/
def run : Nat → List Thread → Option (List (List Char) × List Char)
  | 0, _ => none
  | _ + 1, [] => none
  | fuel + 1, t :: ts =>
    match t.items with
    | [] => some (t.groups, t.rest)
    | item :: items => run fuel (expand item items t.rest t.groups ++ ts)

/-- Try to match a pattern at the start of `s` (anchored attempt; the
unanchored scan is done by `replaceGlobal`).  The fuel bound is far above the
number of states any of the embedded patterns can explore on `s`. -/
def matchAt (pat : List RItem) (s : List Char) : Option (List (List Char) × List Char) :=
  run ((s.length + pat.length + 2) ^ 5) [⟨pat, s, []⟩]

/-- Concatenation of the consumed pieces for items `i` through `j`
(inclusive); used to reassemble the capture groups of the source regexes. -/
def grp (gs : List (List Char)) (i j : Nat) : List Char :=
  ((gs.drop i).take (j + 1 - i)).flatten

/-- One pattern pass: a compiled regex plus the replacement callback from the
source, acting on the consumed pieces. -/
structure RPattern where
  items : List RItem
  repl : List (List Char) → List Char

/-- Global replace, scanning left to right; a successful match is replaced
(replacement text is not rescanned) and scanning resumes after it.  The flag
records whether any match was found, mirroring `hasChanges` being set inside
each replacement callback. -/
def rgAux (pat : List RItem) (f : List (List Char) → List Char) :
    Nat → List Char → List Char × Bool
  | 0, s => (s, false)
  | fuel + 1, s =>
    match s with
    | [] => ([], false)
    | c :: s' =>
      match matchAt pat s with
      | some (gs, rest) =>
        if rest.length < s.length then
          let r := rgAux pat f fuel rest
          (f gs ++ r.1, true)
        else
          let r := rgAux pat f fuel s'
          (f gs ++ c :: r.1, true)
      | none =>
        let r := rgAux pat f fuel s'
        (c :: r.1, r.2)

/-- `String.prototype.replace` with a `/g` regex, returning the rewritten text
and whether any match was found. -/
def replaceGlobal (pat : List RItem) (f : List (List Char) → List Char)
    (s : List Char) : List Char × Bool :=
  rgAux pat f (s.length + 1) s

/-- `if (transformed.match(regex)) transformed = transformed.replace(...)`:
the text is replaced when the pattern matches, and `hasChanges` becomes true
exactly when a replacement callback ran. -/
def applyPass (acc : List Char × Bool) (p : RPattern) : List Char × Bool :=
  let r := replaceGlobal p.items p.repl acc.1
  if r.2 then (r.1, true) else acc

/-! ## The source patterns (lines 82-225) -/

/-- `svg|png|jpg|jpeg|gif|webp|woff|woff2|ttf|otf|eot|mp4|webm|ogg`
(source line 157), in source order. -/
def assetExtensions : List (List Char) :=
  ["svg", "png", "jpg", "jpeg", "gif", "webp", "woff", "woff2", "ttf", "otf",
   "eot", "mp4", "webm", "ogg"].map String.toList

/-- `/url\(\\(["'])(\/src\/[^"'\\]+)\\(["'])\)/` (source line 85). -/
def srcItemsEscaped : List RItem :=
  [.lit "url(\\".toList, .cls quoteP, .lit "/src/".toList, .plus escPathP,
   .lit "\\".toList, .cls quoteP, .lit ")".toList]

/-- `/url\((["'])(\/src\/[^"']+)(["'])\)/` (source line 95). -/
def srcItemsPlain : List RItem :=
  [.lit "url(".toList, .cls quoteP, .lit "/src/".toList, .plus nonQuoteP,
   .cls quoteP, .lit ")".toList]

/-- `/url\((\/src\/[^)]+)\)/` (source line 105). -/
def srcItemsUnquoted : List RItem :=
  [.lit "url(".toList, .lit "/src/".toList, .plus nonParenP, .lit ")".toList]

/-- `` url\((["'])ALIAS\/([^"']+)(["'])\) `` (source line 127); the alias token
is special-character-escaped by the source, hence a literal here. -/
def aliasItemsQuoted (tok : List Char) : List RItem :=
  [.lit "url(".toList, .cls quoteP, .lit (tok ++ "/".toList), .plus nonQuoteP,
   .cls quoteP, .lit ")".toList]

/-- `` url\(ALIAS\/([^)]+)\) `` (source line 137). -/
def aliasItemsUnquoted (tok : List Char) : List RItem :=
  [.lit ("url(".toList ++ tok ++ "/".toList), .plus nonParenP, .lit ")".toList]

/-- `` (import\s+.+\s+from\s+["'])(\/src\/[^"']+\.(EXTS))(['"]) `` (line 163). -/
def jsItemsImport : List RItem :=
  [.lit "import".toList, .plus jsWs, .plus jsDot, .plus jsWs, .lit "from".toList,
   .plus jsWs, .cls quoteP, .lit "/src/".toList, .plus nonQuoteP, .lit ".".toList,
   .alts assetExtensions, .cls quoteP]

/-- `` (import\s*\(\s*["'])(\/src\/[^"']+\.(EXTS))(['"]) `` (line 172). -/
def jsItemsDynamic : List RItem :=
  [.lit "import".toList, .star jsWs, .lit "(".toList, .star jsWs, .cls quoteP,
   .lit "/src/".toList, .plus nonQuoteP, .lit ".".toList, .alts assetExtensions,
   .cls quoteP]

/-- `(src|href|poster|data)` (line 181). -/
def attrNames : List (List Char) := ["src", "href", "poster", "data"].map String.toList

/-- `` (src|href|poster|data)(\s*=\s*["'])(\/src\/[^"']+\.(EXTS))(['"]) ``. -/
def jsItemsAttr : List RItem :=
  [.alts attrNames, .star jsWs, .lit "=".toList, .star jsWs, .cls quoteP,
   .lit "/src/".toList, .plus nonQuoteP, .lit ".".toList, .alts assetExtensions,
   .cls quoteP]

/-- `(backgroundImage|src|href|poster|image|icon|logo|avatar|thumbnail|background)`
(line 190). -/
def propNames : List (List Char) :=
  ["backgroundImage", "src", "href", "poster", "image", "icon", "logo",
   "avatar", "thumbnail", "background"].map String.toList

/-- `` (PROPS)(\s*:\s*["'])(\/src\/[^"']+\.(EXTS))(['"]) `` (line 190). -/
def jsItemsProp : List RItem :=
  [.alts propNames, .star jsWs, .lit ":".toList, .star jsWs, .cls quoteP,
   .lit "/src/".toList, .plus nonQuoteP, .lit ".".toList, .alts assetExtensions,
   .cls quoteP]

/-- `` (import\s+.+\s+from\s+["'])ALIAS\/([^"']+\.(EXTS))(['"]) `` (line 211). -/
def aliasJsItemsImport (tok : List Char) : List RItem :=
  [.lit "import".toList, .plus jsWs, .plus jsDot, .plus jsWs, .lit "from".toList,
   .plus jsWs, .cls quoteP, .lit (tok ++ "/".toList), .plus nonQuoteP,
   .lit ".".toList, .alts assetExtensions, .cls quoteP]

/-! ## The replacement callbacks -/

/-- `` url(\${quote1}${devServerUrl}${path}\${quote2}) `` (line 88). -/
def srcEscapedRepl (dev : List Char) (gs : List (List Char)) : List Char :=
  "url(\\".toList ++ grp gs 1 1 ++ dev ++ grp gs 2 3 ++ "\\".toList ++ grp gs 5 5 ++ ")".toList

/-- `url(${quote1}${devServerUrl}${path}${quote2})` (line 98). -/
def srcPlainRepl (dev : List Char) (gs : List (List Char)) : List Char :=
  "url(".toList ++ grp gs 1 1 ++ dev ++ grp gs 2 3 ++ grp gs 4 4 ++ ")".toList

/-- `url(${devServerUrl}${path})` (line 108). -/
def srcUnquotedRepl (dev : List Char) (gs : List (List Char)) : List Char :=
  "url(".toList ++ dev ++ grp gs 1 2 ++ ")".toList

/-- `url(${quote1}${devServerUrl}${path}/${file}${quote2})` (line 130). -/
def aliasQuotedRepl (dev path : List Char) (gs : List (List Char)) : List Char :=
  "url(".toList ++ grp gs 1 1 ++ dev ++ path ++ "/".toList ++ grp gs 3 3 ++ grp gs 4 4 ++ ")".toList

/-- `url(${devServerUrl}${path}/${file})` (line 140). -/
def aliasUnquotedRepl (dev path : List Char) (gs : List (List Char)) : List Char :=
  "url(".toList ++ dev ++ path ++ "/".toList ++ grp gs 1 1 ++ ")".toList

/-- `${before}${devServerUrl}${path}${after}` (line 167). -/
def jsImportRepl (dev : List Char) (gs : List (List Char)) : List Char :=
  grp gs 0 6 ++ dev ++ grp gs 7 10 ++ grp gs 11 11

/-- `${before}${devServerUrl}${path}${after}` (line 176). -/
def jsDynamicRepl (dev : List Char) (gs : List (List Char)) : List Char :=
  grp gs 0 4 ++ dev ++ grp gs 5 8 ++ grp gs 9 9

/-- `${attr}${equals}${devServerUrl}${path}${quote}` (line 185). -/
def jsAttrRepl (dev : List Char) (gs : List (List Char)) : List Char :=
  grp gs 0 0 ++ grp gs 1 4 ++ dev ++ grp gs 5 8 ++ grp gs 9 9

/-- `${prop}${colon}${devServerUrl}${path}${quote}` (line 194). -/
def jsPropRepl (dev : List Char) (gs : List (List Char)) : List Char :=
  grp gs 0 0 ++ grp gs 1 4 ++ dev ++ grp gs 5 8 ++ grp gs 9 9

/-- `${before}${devServerUrl}${path}/${file}${after}` (line 215). -/
def aliasJsImportRepl (dev path : List Char) (gs : List (List Char)) : List Char :=
  grp gs 0 6 ++ dev ++ path ++ "/".toList ++ grp gs 8 10 ++ grp gs 11 11

/-! ## The pass lists and `transformAliases` -/

/-- `srcPatterns` (source lines 82-113), in source order. -/
def srcPatterns (dev : List Char) : List RPattern :=
  [⟨srcItemsEscaped, srcEscapedRepl dev⟩,
   ⟨srcItemsPlain, srcPlainRepl dev⟩,
   ⟨srcItemsUnquoted, srcUnquotedRepl dev⟩]

/-- `aliasRegexes` for one normalized alias entry (source lines 124-145). -/
def aliasRegexes (dev tok path : List Char) : List RPattern :=
  [⟨aliasItemsQuoted tok, aliasQuotedRepl dev path⟩,
   ⟨aliasItemsUnquoted tok, aliasUnquotedRepl dev path⟩]

/-- `jsPatterns` (source lines 160-197), in source order. -/
def jsPatterns (dev : List Char) : List RPattern :=
  [⟨jsItemsImport, jsImportRepl dev⟩,
   ⟨jsItemsDynamic, jsDynamicRepl dev⟩,
   ⟨jsItemsAttr, jsAttrRepl dev⟩,
   ⟨jsItemsProp, jsPropRepl dev⟩]

/-- `aliasJsPatterns` for one normalized alias entry (source lines 208-218):
a single pattern, the static-import form. -/
def aliasJsPatterns (dev tok path : List Char) : List RPattern :=
  [⟨aliasJsItemsImport tok, aliasJsImportRepl dev path⟩]

/-- A configuration value: alias targets come from user configuration and are
not guaranteed to be strings. -/
inductive JsVal where
  | str : String → JsVal
  | other : JsVal
deriving DecidableEq

/-- JavaScript `path.startsWith('/')`: the first character is a slash. -/
def startsWithSlash (p : String) : Bool :=
  match p.toList with
  | [] => false
  | c :: _ => c == '/'

/-- `path.startsWith('/') ? path : '/' + path` (source line 77). -/
def normalizePath (p : String) : String :=
  if startsWithSlash p then p else "/" ++ p

/-- `aliasPatterns` (source lines 75-78): normalize every alias entry.
Calling `.startsWith` on a non-string target throws a `TypeError`, modelled
by `Except.error`. -/
def aliasPatterns : List (String × JsVal) → Except Unit (List (String × String))
  | [] => .ok []
  | (tok, .str p) :: rest =>
    (aliasPatterns rest).map (fun l => (tok, normalizePath p) :: l)
  | (_, .other) :: _ => .error ()

/-- The `{ code, map }` object returned on change; `map` is always `null`. -/
structure TransformResult where
  code : String
  map : Option Unit
deriving DecidableEq

/-- The ordered pass list selected by the `type === 'css'` / `type === 'js'`
branches, for an already-normalized alias list. -/
def passList (dev : List Char) (aliasPats : List (String × String)) (type : String) :
    List RPattern :=
  if type = "css" then
    srcPatterns dev ++
      aliasPats.flatMap (fun ap => aliasRegexes dev ap.1.toList ap.2.toList)
  else if type = "js" then
    jsPatterns dev ++
      aliasPats.flatMap (fun ap => aliasJsPatterns dev ap.1.toList ap.2.toList)
  else []

/-- Run all passes over the text, threading `transformed` and `hasChanges`. -/
def runPasses (dev : List Char) (aliasPats : List (String × String))
    (code : List Char) (type : String) : List Char × Bool :=
  List.foldl applyPass (code, false) (passList dev aliasPats type)

/-- The body of `transformAliases` after alias normalization: run the pass
pipeline and return `hasChanges ? { code: transformed, map: null } : null`
(source line 228). -/
def transformCore (dev : String) (aliasPats : List (String × String))
    (code type : String) : Option TransformResult :=
  let r := runPasses dev.toList aliasPats code.toList type
  if r.2 then some ⟨String.mk r.1, none⟩ else none

/-- `transformAliases` (source lines 70-229) on a raw alias mapping: alias
normalization runs first (line 75, before the `type` dispatch) and may throw;
otherwise the pass pipeline runs. -/
def transformAliases (devServerUrl : String) (aliases : List (String × JsVal))
    (code type : String) : Except Unit (Option TransformResult) :=
  (aliasPatterns aliases).map (fun aps => transformCore devServerUrl aps code type)

/-- `transformAliases` specialized to an all-string alias mapping (the normal
configuration); proved below to agree with `transformAliases`. -/
def transformStr (devServerUrl : String) (aliases : List (String × String))
    (code type : String) : Option TransformResult :=
  transformCore devServerUrl (aliases.map (fun ap => (ap.1, normalizePath ap.2))) code type

/-! ## Soundness of the matcher: what a successful match tells us -/

/-- What one regex item guarantees about the piece of text it consumed. -/
def ItemMatch : RItem → List Char → Prop
  | .lit l, g => g = l
  | .cls p, g => ∃ c, p c = true ∧ g = [c]
  | .plus p, g => g ≠ [] ∧ ∀ c ∈ g, p c = true
  | .star p, g => ∀ c ∈ g, p c = true
  | .alts ls, g => g ∈ ls

/-- Invariant of a backtracking thread with respect to the whole pattern and
the string the match was attempted on. -/
def ThreadInv (pat : List RItem) (s : List Char) (t : Thread) : Prop :=
  ∃ done, pat = done ++ t.items ∧ List.Forall₂ ItemMatch done t.groups ∧
    t.groups.flatten ++ t.rest = s

theorem prefixOf_append_drop : ∀ (l r : List Char), l.isPrefixOf r = true →
    l ++ r.drop l.length = r := by
  intro l
  induction l with
  | nil => intro r _; simp
  | cons c l ih =>
    intro r h
    cases r with
    | nil => simp [List.isPrefixOf] at h
    | cons d r =>
      simp only [List.isPrefixOf, Bool.and_eq_true, beq_iff_eq] at h
      obtain ⟨rfl, h2⟩ := h
      simpa using ih r h2

theorem take_all_of_le_takeWhile : ∀ (p : Char → Bool) (r : List Char) (k : Nat),
    k ≤ (r.takeWhile p).length → ∀ c ∈ r.take k, p c = true := by
  intro p r
  induction r with
  | nil => intro k _ c hc; simp at hc
  | cons d r ih =>
    intro k hk c hc
    by_cases hd : p d = true
    · cases k with
      | zero => simp at hc
      | succ k =>
        rw [List.takeWhile_cons_of_pos hd] at hk
        simp only [List.length_cons, Nat.succ_le_succ_iff] at hk
        simp only [List.take_succ_cons, List.mem_cons] at hc
        rcases hc with rfl | hc
        · exact hd
        · exact ih k hk c hc
    · rw [List.takeWhile_cons_of_neg hd] at hk
      simp only [List.length_nil, Nat.le_zero] at hk
      subst hk
      simp at hc

theorem takeWhile_length_le : ∀ (p : Char → Bool) (r : List Char),
    (r.takeWhile p).length ≤ r.length := by
  intro p r
  induction r with
  | nil => simp
  | cons d r ih =>
    by_cases hd : p d = true
    · rw [List.takeWhile_cons_of_pos hd]
      simpa using ih
    · rw [List.takeWhile_cons_of_neg hd]
      simp

theorem expand_inv (pat : List RItem) (s : List Char) (item : RItem)
    (items : List RItem) (rest : List Char) (groups : List (List Char))
    (hinv : ThreadInv pat s ⟨item :: items, rest, groups⟩) :
    ∀ t' ∈ expand item items rest groups, ThreadInv pat s t' := by
  obtain ⟨done, hpat, hfa, hflat⟩ := hinv
  simp only at hpat hfa hflat
  intro t' ht'
  have step : ∀ (g : List Char) (r' : List Char), ItemMatch item g → g ++ r' = rest →
      ThreadInv pat s ⟨items, r', groups ++ [g]⟩ := by
    intro g r' hg hgr
    refine ⟨done ++ [item], by simpa [List.append_assoc] using hpat,
      List.rel_append hfa (List.Forall₂.cons hg List.Forall₂.nil), ?_⟩
    simp only [List.flatten_append, List.flatten_cons, List.flatten_nil,
      List.append_nil, List.append_assoc]
    rw [hgr]
    exact hflat
  cases item with
  | lit l =>
    simp only [expand] at ht'
    split at ht'
    next hpre =>
      simp only [List.mem_singleton] at ht'
      subst ht'
      exact step l _ rfl (prefixOf_append_drop l rest hpre)
    next => simp at ht'
  | cls p =>
    cases rest with
    | nil => simp [expand] at ht'
    | cons c r =>
      have hx : expand (RItem.cls p) items (c :: r) groups =
          if p c = true then [⟨items, r, groups ++ [[c]]⟩] else [] := rfl
      rw [hx] at ht'
      split at ht'
      next hc =>
        simp only [List.mem_singleton] at ht'
        subst ht'
        exact step [c] r ⟨c, hc, rfl⟩ rfl
      next => simp at ht'
  | plus p =>
    simp only [expand, List.mem_map, List.mem_range] at ht'
    obtain ⟨i, hi, rfl⟩ := ht'
    have hk1 : 1 ≤ (rest.takeWhile p).length - i := by omega
    have hkm : (rest.takeWhile p).length - i ≤ (rest.takeWhile p).length := by omega
    refine step _ _ ⟨?_, take_all_of_le_takeWhile p rest _ hkm⟩ (List.take_append_drop _ _)
    have hlen : (rest.takeWhile p).length ≤ rest.length := takeWhile_length_le p rest
    intro hnil
    have := congrArg List.length hnil
    simp only [List.length_take, List.length_nil] at this
    omega
  | star p =>
    simp only [expand, List.mem_map, List.mem_range] at ht'
    obtain ⟨i, hi, rfl⟩ := ht'
    have hkm : (rest.takeWhile p).length - i ≤ (rest.takeWhile p).length := by omega
    exact step _ _ (take_all_of_le_takeWhile p rest _ hkm) (List.take_append_drop _ _)
  | alts ls =>
    simp only [expand, List.mem_filterMap] at ht'
    obtain ⟨l, hl, hsome⟩ := ht'
    split at hsome
    next hpre =>
      simp only [Option.some_inj] at hsome
      subst hsome
      exact step l _ hl (prefixOf_append_drop l rest hpre)
    next => simp at hsome

theorem run_sound : ∀ (fuel : Nat) (stack : List Thread) (pat : List RItem)
    (s : List Char) (gs : List (List Char)) (rest : List Char),
    (∀ t ∈ stack, ThreadInv pat s t) → run fuel stack = some (gs, rest) →
    List.Forall₂ ItemMatch pat gs ∧ gs.flatten ++ rest = s := by
  intro fuel
  induction fuel with
  | zero => intro stack pat s gs rest _ h; simp [run] at h
  | succ n ih =>
    intro stack pat s gs rest hinv h
    match stack with
    | [] => simp [run] at h
    | ⟨items, trest, tgroups⟩ :: ts =>
      cases items with
      | nil =>
        simp only [run, Option.some_inj] at h
        injection h with h1 h2
        subst h1
        subst h2
        obtain ⟨done, hpat, hfa, hflat⟩ := hinv _ (List.mem_cons_self _ _)
        simp only [List.append_nil] at hpat
        subst hpat
        exact ⟨hfa, hflat⟩
      | cons item items' =>
        simp only [run] at h
        refine ih _ pat s gs rest ?_ h
        intro t' ht'
        rcases List.mem_append.1 ht' with h' | h'
        · exact expand_inv pat s item items' trest tgroups
            (hinv _ (List.mem_cons_self _ _)) t' h'
        · exact hinv t' (List.mem_cons_of_mem _ h')

/-- Soundness of an anchored match attempt: the pieces satisfy the pattern
item-by-item, and their concatenation followed by the remainder is the input. -/
theorem matchAt_sound {pat : List RItem} {s : List Char} {gs : List (List Char)}
    {rest : List Char} (h : matchAt pat s = some (gs, rest)) :
    List.Forall₂ ItemMatch pat gs ∧ gs.flatten ++ rest = s := by
  refine run_sound _ _ pat s gs rest ?_ h
  intro t ht
  simp only [List.mem_singleton] at ht
  subst ht
  exact ⟨[], by simp, List.Forall₂.nil, rfl⟩

/-! ## Pipeline lemmas -/

theorem rgAux_flag_false : ∀ (pat : List RItem) (f : List (List Char) → List Char)
    (fuel : Nat) (s : List Char),
    (rgAux pat f fuel s).2 = false → (rgAux pat f fuel s).1 = s := by
  intro pat f fuel
  induction fuel with
  | zero => intro s _; rfl
  | succ n ih =>
    intro s
    cases s with
    | nil => intro _; rfl
    | cons c s' =>
      cases hm : matchAt pat (c :: s') with
      | some gr =>
        rcases gr with ⟨gs, rest⟩
        simp only [rgAux, hm]
        split
        · intro h; cases h
        · intro h; cases h
      | none =>
        simp only [rgAux, hm]
        intro h
        rw [ih s' h]

theorem replaceGlobal_flag_false (pat : List RItem) (f : List (List Char) → List Char)
    (s : List Char) : (replaceGlobal pat f s).2 = false → (replaceGlobal pat f s).1 = s :=
  rgAux_flag_false pat f (s.length + 1) s

theorem foldl_flag_mono : ∀ (ps : List RPattern) (acc : List Char × Bool),
    (List.foldl applyPass acc ps).2 = false → acc.2 = false := by
  intro ps
  induction ps with
  | nil => intro acc h; simpa using h
  | cons p ps ih =>
    intro acc h
    rw [List.foldl_cons] at h
    have h1 := ih _ h
    revert h1
    simp only [applyPass]
    split
    · intro h1; cases h1
    · exact id

theorem foldl_false_iff : ∀ (ps : List RPattern) (s : List Char),
    (List.foldl applyPass (s, false) ps).2 = false ↔
      ∀ p ∈ ps, (replaceGlobal p.items p.repl s).2 = false := by
  intro ps
  induction ps with
  | nil => intro s; simp
  | cons p ps ih =>
    intro s
    rw [List.foldl_cons]
    by_cases hr : (replaceGlobal p.items p.repl s).2 = true
    · constructor
      · intro h
        have h1 := foldl_flag_mono ps _ h
        revert h1
        simp only [applyPass]
        rw [if_pos hr]
        intro h1
        cases h1
      · intro h
        exact absurd hr (by simpa using h p (List.mem_cons_self p ps))
    · have hr' : (replaceGlobal p.items p.repl s).2 = false := by
        simpa using hr
      have hstep : applyPass (s, false) p = (s, false) := by
        simp only [applyPass]
        rw [if_neg (by simp [hr'])]
      rw [hstep, ih]
      constructor
      · intro h q hq
        rcases List.mem_cons.1 hq with rfl | hq
        · exact hr'
        · exact h q hq
      · intro h q hq
        exact h q (List.mem_cons_of_mem p hq)

theorem foldl_false_text : ∀ (ps : List RPattern) (s : List Char),
    (List.foldl applyPass (s, false) ps).2 = false →
    (List.foldl applyPass (s, false) ps).1 = s := by
  intro ps
  induction ps with
  | nil => intro s _; rfl
  | cons p ps ih =>
    intro s h
    rw [List.foldl_cons] at h ⊢
    by_cases hr : (replaceGlobal p.items p.repl s).2 = true
    · exfalso
      have h1 := foldl_flag_mono ps _ h
      revert h1
      simp only [applyPass]
      rw [if_pos hr]
      intro h1
      cases h1
    · have hstep : applyPass (s, false) p = (s, false) := by
        simp only [applyPass]
        rw [if_neg hr]
      rw [hstep] at h ⊢
      exact ih s h

theorem aliasPatterns_str : ∀ (as : List (String × String)),
    aliasPatterns (as.map (fun ap => (ap.1, JsVal.str ap.2))) =
      Except.ok (as.map (fun ap => (ap.1, normalizePath ap.2))) := by
  intro as
  induction as with
  | nil => rfl
  | cons a as ih =>
    simp only [List.map_cons, aliasPatterns, ih, Except.map]

/-! ## Extraction helpers for concrete patterns -/

theorem flatten_head_lit {l : List Char} {rest : List RItem} {gs : List (List Char)}
    (hf : List.Forall₂ ItemMatch (RItem.lit l :: rest) gs) :
    ∃ t, gs.flatten = l ++ t := by
  cases hf with
  | cons h0 h' =>
    rename_i b l₂
    have hb : b = l := h0
    subst hb
    exact ⟨l₂.flatten, by simp⟩

theorem forall₂_get_itemMatch {pat : List RItem} {gs : List (List Char)}
    (hf : List.Forall₂ ItemMatch pat gs) :
    ∀ (i : Nat) (item : RItem), pat.get? i = some item →
      ∃ hlt : i < gs.length, ItemMatch item (gs.get ⟨i, hlt⟩) := by
  induction hf with
  | nil => intro i item hi; simp at hi
  | cons h0 htail ih =>
    intro i item hi
    cases i with
    | zero =>
      simp only [List.get?_cons_zero, Option.some_inj] at hi
      subst hi
      exact ⟨by simp, h0⟩
    | succ i =>
      simp only [List.get?_cons_succ] at hi
      obtain ⟨hlt, hm⟩ := ih i item hi
      exact ⟨by simpa using Nat.succ_lt_succ hlt, hm⟩

theorem grp_two (gs : List (List Char)) (i : Nat) (h : i + 1 < gs.length) :
    grp gs i (i + 1) =
      gs.get ⟨i, by omega⟩ ++ (gs.get ⟨i + 1, h⟩ ++ []) := by
  unfold grp
  have h4 : i + 1 + 1 - i = 2 := by omega
  rw [h4, List.drop_eq_getElem_cons (by omega : i < gs.length),
    List.drop_eq_getElem_cons h]
  simp only [List.take_succ_cons, List.take_zero, List.flatten_cons,
    List.flatten_nil, List.get_eq_getElem, List.append_nil]

theorem grp_four (gs : List (List Char)) (i : Nat) (h : i + 3 < gs.length) :
    grp gs i (i + 3) =
      gs.get ⟨i, by omega⟩ ++ (gs.get ⟨i + 1, by omega⟩ ++
        (gs.get ⟨i + 2, by omega⟩ ++ (gs.get ⟨i + 3, h⟩ ++ []))) := by
  unfold grp
  have h4 : i + 3 + 1 - i = 4 := by omega
  rw [h4, List.drop_eq_getElem_cons (by omega : i < gs.length),
    List.drop_eq_getElem_cons (by omega : i + 1 < gs.length),
    List.drop_eq_getElem_cons (by omega : i + 2 < gs.length),
    List.drop_eq_getElem_cons h]
  simp only [List.take_succ_cons, List.take_zero, List.flatten_cons,
    List.flatten_nil, List.get_eq_getElem, List.append_nil]

/-- A matched path group of shape `lit pre / plus cls / lit "." / alts exts`
starts with `pre` and ends with `.` followed by one of the alternation's
literals. -/
theorem grp_path_shape {pat : List RItem} {gs : List (List Char)}
    (hf : List.Forall₂ ItemMatch pat gs) (i : Nat) (pre : List Char)
    (p : Char → Bool) (exts : List (List Char))
    (h0 : pat.get? i = some (RItem.lit pre))
    (h1 : pat.get? (i + 1) = some (RItem.plus p))
    (h2 : pat.get? (i + 2) = some (RItem.lit ".".toList))
    (h3 : pat.get? (i + 3) = some (RItem.alts exts)) :
    (∃ t, grp gs i (i + 3) = pre ++ t) ∧
    (∃ e ∈ exts, ∃ t, grp gs i (i + 3) = t ++ ('.' :: e)) := by
  obtain ⟨hl0, hm0⟩ := forall₂_get_itemMatch hf i _ h0
  obtain ⟨hl1, hm1⟩ := forall₂_get_itemMatch hf (i + 1) _ h1
  obtain ⟨hl2, hm2⟩ := forall₂_get_itemMatch hf (i + 2) _ h2
  obtain ⟨hl3, hm3⟩ := forall₂_get_itemMatch hf (i + 3) _ h3
  have hg0 : gs.get ⟨i, hl0⟩ = pre := hm0
  have hg2 : gs.get ⟨i + 2, hl2⟩ = ".".toList := hm2
  have hg3 : gs.get ⟨i + 3, hl3⟩ ∈ exts := hm3
  rw [grp_four gs i hl3]
  constructor
  · exact ⟨_, by rw [hg0]⟩
  · refine ⟨gs.get ⟨i + 3, hl3⟩, hg3, gs.get ⟨i, hl0⟩ ++ gs.get ⟨i + 1, hl1⟩, ?_⟩
    rw [hg2]
    simp

/-! ## Claims -/

/-- C1, counterexample.  The claim states that a raw alias target containing a
`/src/` segment is truncated at that marker, so that
`/Users/dev/project/src/assets/fonts` normalizes to `/src/assets/fonts`.  The
code performs no such truncation: since the raw target already starts with
`/`, it is kept verbatim. -/
theorem C1_counterexample :
    aliasPatterns [("@fonts", JsVal.str "/Users/dev/project/src/assets/fonts")] ≠
      Except.ok [("@fonts", "/src/assets/fonts")] ∧
    aliasPatterns [("@fonts", JsVal.str "/Users/dev/project/src/assets/fonts")] =
      Except.ok [("@fonts", "/Users/dev/project/src/assets/fonts")] := by
  have h : aliasPatterns [("@fonts", JsVal.str "/Users/dev/project/src/assets/fonts")] =
      Except.ok [("@fonts", "/Users/dev/project/src/assets/fonts")] := rfl
  refine ⟨?_, h⟩
  rw [h]
  intro hc
  have := Except.ok.inj hc
  simp only [List.cons.injEq, Prod.mk.injEq] at this
  exact absurd this.1.2 (by decide)

/-- C1, amended: normalization never truncates at a `/src/` marker.  The
normalized path is the raw target itself whenever it already starts with `/`
(even when it contains a `/src/` segment), and `/` prepended to it otherwise;
in particular `assets/fonts` normalizes to `/assets/fonts` and
`/Users/dev/project/src/assets/fonts` normalizes to itself. -/
theorem C1_normalization :
    (∀ p : String, startsWithSlash p = true → normalizePath p = p) ∧
    (∀ p : String, startsWithSlash p = false → normalizePath p = "/" ++ p) ∧
    normalizePath "assets/fonts" = "/assets/fonts" ∧
    normalizePath "/Users/dev/project/src/assets/fonts" =
      "/Users/dev/project/src/assets/fonts" := by
  refine ⟨?_, ?_, rfl, rfl⟩
  · intro p h; simp [normalizePath, h]
  · intro p h; simp [normalizePath, h]

/-- Witness for C1: the two branches of normalization at concrete targets. -/
theorem C1_normalization_witness :
    normalizePath "/src/assets/fonts" = "/src/assets/fonts" ∧
    normalizePath "assets/images" = "/assets/images" :=
  ⟨C1_normalization.1 "/src/assets/fonts" rfl,
   C1_normalization.2.1 "assets/images" rfl⟩

/-- C2, counterexample.  The claim states that an alias entry with a
non-string target, or with an empty alias token, is inert and never crashes.
In fact (i) a non-string target makes line 77 (`path.startsWith`) throw a
`TypeError`, and (ii) an empty alias token is not excluded: its generated
pattern rewrites `url("/public/logo.png")` even though no real alias occurs. -/
theorem C2_counterexample :
    transformAliases "http://localhost:5173" [("@fonts", JsVal.other)] ".x{}" "css" =
      Except.error () ∧
    transformAliases "http://localhost:5173" [("", JsVal.str "assets")]
      "url(\"/public/logo.png\")" "css" =
      Except.ok (some ⟨"url(\"http://localhost:5173/assets/public/logo.png\")", none⟩) := by
  exact ⟨rfl, rfl⟩

/-- C2, amended: alias normalization throws on a non-string target (the entry
is not skipped), and an empty alias token is not excluded; but for every alias
mapping whose targets are all strings the transformation never throws — it
returns exactly the result of the rewrite pipeline on the normalized alias
list, for every input text, dialect and base URL. -/
theorem C2_no_throw_for_string_targets :
    ∀ (dev : String) (aliases : List (String × String)) (code type : String),
    transformAliases dev (aliases.map (fun ap => (ap.1, JsVal.str ap.2))) code type =
      Except.ok (transformStr dev aliases code type) := by
  intro dev as code type
  simp only [transformAliases, aliasPatterns_str, Except.map, transformStr]

/-- C4: the result is `null` exactly when no pass substituted anything
(`hasChanges = false`), which happens exactly when no pass's pattern matches
the input text; in that case the pipeline text is byte-identical to the
input; and whenever a result is returned, its `map` field is `null` (no
source-position mapping) and its code is the pipeline text with
`hasChanges = true`. -/
theorem C4_transform_result_contract :
    ∀ (dev : String) (aps : List (String × String)) (code type : String),
    (transformCore dev aps code type = none ↔
      (runPasses dev.toList aps code.toList type).2 = false) ∧
    ((runPasses dev.toList aps code.toList type).2 = false →
      (runPasses dev.toList aps code.toList type).1 = code.toList) ∧
    ((runPasses dev.toList aps code.toList type).2 = false ↔
      ∀ p ∈ passList dev.toList aps type,
        (replaceGlobal p.items p.repl code.toList).2 = false) ∧
    (∀ r, transformCore dev aps code type = some r →
      r.map = none ∧ r.code = String.mk (runPasses dev.toList aps code.toList type).1 ∧
      (runPasses dev.toList aps code.toList type).2 = true) := by
  intro dev aps code type
  have hTC : transformCore dev aps code type =
      (if (runPasses dev.toList aps code.toList type).2 then
        some ⟨String.mk (runPasses dev.toList aps code.toList type).1, none⟩
      else none) := rfl
  have hRP : runPasses dev.toList aps code.toList type =
      List.foldl applyPass (code.toList, false) (passList dev.toList aps type) := rfl
  refine ⟨?_, ?_, ?_, ?_⟩
  · rw [hTC]
    cases hflag : (runPasses dev.toList aps code.toList type).2 with
    | false => simp
    | true => simp
  · intro h
    rw [hRP] at h ⊢
    exact foldl_false_text _ _ h
  · rw [hRP]
    exact foldl_false_iff _ _
  · intro r hr
    rw [hTC] at hr
    cases hflag : (runPasses dev.toList aps code.toList type).2 with
    | false => rw [hflag] at hr; simp at hr
    | true =>
      rw [hflag] at hr
      simp only [if_true] at hr
      injection hr with hr
      subst hr
      exact ⟨rfl, rfl, rfl⟩

/-- Witness for C4: on a text with no matchable reference the transformation
returns `null`; on a text with one it returns a mapped result with `map`
equal to `null`. -/
theorem C4_transform_result_contract_witness :
    transformCore "http://localhost:5173" [] "nothing here" "css" = none ∧
    (⟨"url(http://localhost:5173/src/a.png)", none⟩ : TransformResult).map = none :=
  ⟨(C4_transform_result_contract "http://localhost:5173" [] "nothing here" "css").1.mpr
      (by decide),
   ((C4_transform_result_contract "http://localhost:5173" [] "url(/src/a.png)" "css").2.2.2
      ⟨"url(http://localhost:5173/src/a.png)", none⟩ (by decide)).1⟩

/-- C3, counterexample.  The claim quantifies over every dev-server base URL.
With the empty base URL, rewriting `url(/src/a.png)` substitutes the path
(`changed=true`) yet produces byte-identical text, so the second application
performs the same substitution and reports `changed=true` again, not
`changed=false`. -/
theorem C3_counterexample :
    transformStr "" [] "url(/src/a.png)" "css" =
      some ⟨"url(/src/a.png)", none⟩ ∧
    transformStr "" []
      ((⟨"url(/src/a.png)", none⟩ : TransformResult).code) "css" ≠ none := by
  constructor
  · rfl
  · intro h
    have h' : transformStr "" [] "url(/src/a.png)" "css" =
        some ⟨"url(/src/a.png)", none⟩ := rfl
    rw [show (⟨"url(/src/a.png)", none⟩ : TransformResult).code = "url(/src/a.png)"
      from rfl] at h
    rw [h'] at h
    cases h

/-- C3, amended: with the standard base URL `http://localhost:5173` (which
cannot re-introduce a `/src/`-after-quote or bare-alias occurrence) and alias
`@fonts → /src/assets/fonts`, a second application of the rewrite to the
output of a first application reports no change, for a representative input
of every pass category of both dialects; idempotence does not hold for every
base URL (see the counterexample with the empty base URL). -/
theorem C3_second_application_idempotent :
    (transformStr "http://localhost:5173" [("@fonts", "/src/assets/fonts")]
      "url(\\\"/src/a.png\\\")" "css" =
      some ⟨"url(\\\"http://localhost:5173/src/a.png\\\")", none⟩ ∧
    transformStr "http://localhost:5173" [("@fonts", "/src/assets/fonts")]
      "url(\\\"http://localhost:5173/src/a.png\\\")" "css" = none) ∧
    (transformStr "http://localhost:5173" [("@fonts", "/src/assets/fonts")]
      "url(\"/src/a.png\")" "css" =
      some ⟨"url(\"http://localhost:5173/src/a.png\")", none⟩ ∧
    transformStr "http://localhost:5173" [("@fonts", "/src/assets/fonts")]
      "url(\"http://localhost:5173/src/a.png\")" "css" = none) ∧
    (transformStr "http://localhost:5173" [("@fonts", "/src/assets/fonts")]
      "url(/src/a.png)" "css" =
      some ⟨"url(http://localhost:5173/src/a.png)", none⟩ ∧
    transformStr "http://localhost:5173" [("@fonts", "/src/assets/fonts")]
      "url(http://localhost:5173/src/a.png)" "css" = none) ∧
    (transformStr "http://localhost:5173" [("@fonts", "/src/assets/fonts")]
      "url(\"@fonts/f.woff2\")" "css" =
      some ⟨"url(\"http://localhost:5173/src/assets/fonts/f.woff2\")", none⟩ ∧
    transformStr "http://localhost:5173" [("@fonts", "/src/assets/fonts")]
      "url(\"http://localhost:5173/src/assets/fonts/f.woff2\")" "css" = none) ∧
    (transformStr "http://localhost:5173" [("@fonts", "/src/assets/fonts")]
      "url(@fonts/f.woff2)" "css" =
      some ⟨"url(http://localhost:5173/src/assets/fonts/f.woff2)", none⟩ ∧
    transformStr "http://localhost:5173" [("@fonts", "/src/assets/fonts")]
      "url(http://localhost:5173/src/assets/fonts/f.woff2)" "css" = none) ∧
    (transformStr "http://localhost:5173" [("@fonts", "/src/assets/fonts")]
      "import a from \"/src/a.svg\"" "js" =
      some ⟨"import a from \"http://localhost:5173/src/a.svg\"", none⟩ ∧
    transformStr "http://localhost:5173" [("@fonts", "/src/assets/fonts")]
      "import a from \"http://localhost:5173/src/a.svg\"" "js" = none) ∧
    (transformStr "http://localhost:5173" [("@fonts", "/src/assets/fonts")]
      "import(\"/src/b.png\")" "js" =
      some ⟨"import(\"http://localhost:5173/src/b.png\")", none⟩ ∧
    transformStr "http://localhost:5173" [("@fonts", "/src/assets/fonts")]
      "import(\"http://localhost:5173/src/b.png\")" "js" = none) ∧
    (transformStr "http://localhost:5173" [("@fonts", "/src/assets/fonts")]
      "src=\"/src/c.gif\"" "js" =
      some ⟨"src=\"http://localhost:5173/src/c.gif\"", none⟩ ∧
    transformStr "http://localhost:5173" [("@fonts", "/src/assets/fonts")]
      "src=\"http://localhost:5173/src/c.gif\"" "js" = none) ∧
    (transformStr "http://localhost:5173" [("@fonts", "/src/assets/fonts")]
      "icon: \"/src/d.webp\"" "js" =
      some ⟨"icon: \"http://localhost:5173/src/d.webp\"", none⟩ ∧
    transformStr "http://localhost:5173" [("@fonts", "/src/assets/fonts")]
      "icon: \"http://localhost:5173/src/d.webp\"" "js" = none) ∧
    (transformStr "http://localhost:5173" [("@fonts", "/src/assets/fonts")]
      "import f from \"@fonts/f.woff2\"" "js" =
      some ⟨"import f from \"http://localhost:5173/src/assets/fonts/f.woff2\"", none⟩ ∧
    transformStr "http://localhost:5173" [("@fonts", "/src/assets/fonts")]
      "import f from \"http://localhost:5173/src/assets/fonts/f.woff2\"" "js" = none) := by
  exact ⟨⟨rfl, rfl⟩, ⟨rfl, rfl⟩, ⟨rfl, rfl⟩, ⟨rfl, rfl⟩, ⟨rfl, rfl⟩,
    ⟨rfl, rfl⟩, ⟨rfl, rfl⟩, ⟨rfl, rfl⟩, ⟨rfl, rfl⟩, ⟨rfl, rfl⟩⟩

/-- C9: the rewritten reference is the verbatim concatenation of the base URL
and the resolved path, with no separator inserted or normalized: a base URL
ending in `/` yields a double slash, and the empty base URL yields output
text identical to the input while still reporting a change. -/
theorem C9_verbatim_concatenation :
    transformStr "http://localhost:5173/" [] "url(\"/src/a.png\")" "css" =
      some ⟨"url(\"http://localhost:5173//src/a.png\")", none⟩ ∧
    transformStr "http://localhost:5173/" [] "import a from \"/src/a.svg\"" "js" =
      some ⟨"import a from \"http://localhost:5173//src/a.svg\"", none⟩ ∧
    transformStr "" [] "url(\"/src/a.png\")" "css" =
      some ⟨"url(\"/src/a.png\")", none⟩ := by
  exact ⟨rfl, rfl, rfl⟩

theorem grp_one (gs : List (List Char)) (i : Nat) (h : i < gs.length) :
    grp gs i i = gs.get ⟨i, h⟩ ++ [] := by
  unfold grp
  have h1 : i + 1 - i = 1 := by omega
  rw [h1, List.drop_eq_getElem_cons h]
  simp only [List.take_succ_cons, List.take_zero, List.flatten_cons,
    List.flatten_nil, List.get_eq_getElem]

theorem grp_two_pre {pat : List RItem} {gs : List (List Char)}
    (hf : List.Forall₂ ItemMatch pat gs) (i : Nat) (pre : List Char)
    (h0 : pat.get? i = some (RItem.lit pre)) (h1 : i + 1 < pat.length) :
    ∃ t, grp gs i (i + 1) = pre ++ t := by
  have hb : i + 1 < gs.length := hf.length_eq ▸ h1
  obtain ⟨hl0, hm0⟩ := forall₂_get_itemMatch hf i _ h0
  have hg0 : gs.get ⟨i, hl0⟩ = pre := hm0
  refine ⟨gs.get ⟨i + 1, hb⟩ ++ [], ?_⟩
  rw [grp_two gs i hb]
  exact congrArg (· ++ (gs.get ⟨i + 1, hb⟩ ++ [])) hg0

theorem grp_three (gs : List (List Char)) (i : Nat) (h : i + 2 < gs.length) :
    grp gs i (i + 2) =
      gs.get ⟨i, by omega⟩ ++ (gs.get ⟨i + 1, by omega⟩ ++ (gs.get ⟨i + 2, h⟩ ++ [])) := by
  unfold grp
  have h4 : i + 2 + 1 - i = 3 := by omega
  rw [h4, List.drop_eq_getElem_cons (by omega : i < gs.length),
    List.drop_eq_getElem_cons (by omega : i + 1 < gs.length),
    List.drop_eq_getElem_cons h]
  simp only [List.take_succ_cons, List.take_zero, List.flatten_cons,
    List.flatten_nil, List.get_eq_getElem, List.append_nil]

/-- A matched group of shape `plus cls / lit "." / alts exts` ends with `.`
followed by one of the alternation's literals. -/
theorem grp_ext3 {pat : List RItem} {gs : List (List Char)}
    (hf : List.Forall₂ ItemMatch pat gs) (i : Nat) (p : Char → Bool)
    (exts : List (List Char))
    (h0 : pat.get? i = some (RItem.plus p))
    (h1 : pat.get? (i + 1) = some (RItem.lit ".".toList))
    (h2 : pat.get? (i + 2) = some (RItem.alts exts)) :
    ∃ e ∈ exts, ∃ t, grp gs i (i + 2) = t ++ ('.' :: e) := by
  obtain ⟨hl0, hm0⟩ := forall₂_get_itemMatch hf i _ h0
  obtain ⟨hl1, hm1⟩ := forall₂_get_itemMatch hf (i + 1) _ h1
  obtain ⟨hl2, hm2⟩ := forall₂_get_itemMatch hf (i + 2) _ h2
  have hg1 : gs.get ⟨i + 1, hl1⟩ = ".".toList := hm1
  have hg2 : gs.get ⟨i + 2, hl2⟩ ∈ exts := hm2
  rw [grp_three gs i hl2]
  refine ⟨gs.get ⟨i + 2, hl2⟩, hg2, gs.get ⟨i, hl0⟩, ?_⟩
  rw [hg1]
  simp

/-- C5: every absolute-path pass can only match a path that begins with
`/src/` — the path capture group of each of the seven absolute-path patterns
(three stylesheet, four script) starts with `/src/` in every successful
match — and concretely, absolute paths outside `/src/` in `url()`, import,
attribute and property position are left unchanged (`changed=false`). -/
theorem C5_absolute_outside_src :
    (∀ (s : List Char) (gs : List (List Char)) (rest : List Char),
      matchAt srcItemsEscaped s = some (gs, rest) →
      ∃ t, grp gs 2 3 = "/src/".toList ++ t) ∧
    (∀ (s : List Char) (gs : List (List Char)) (rest : List Char),
      matchAt srcItemsPlain s = some (gs, rest) →
      ∃ t, grp gs 2 3 = "/src/".toList ++ t) ∧
    (∀ (s : List Char) (gs : List (List Char)) (rest : List Char),
      matchAt srcItemsUnquoted s = some (gs, rest) →
      ∃ t, grp gs 1 2 = "/src/".toList ++ t) ∧
    (∀ (s : List Char) (gs : List (List Char)) (rest : List Char),
      matchAt jsItemsImport s = some (gs, rest) →
      ∃ t, grp gs 7 10 = "/src/".toList ++ t) ∧
    (∀ (s : List Char) (gs : List (List Char)) (rest : List Char),
      matchAt jsItemsDynamic s = some (gs, rest) →
      ∃ t, grp gs 5 8 = "/src/".toList ++ t) ∧
    (∀ (s : List Char) (gs : List (List Char)) (rest : List Char),
      matchAt jsItemsAttr s = some (gs, rest) →
      ∃ t, grp gs 5 8 = "/src/".toList ++ t) ∧
    (∀ (s : List Char) (gs : List (List Char)) (rest : List Char),
      matchAt jsItemsProp s = some (gs, rest) →
      ∃ t, grp gs 5 8 = "/src/".toList ++ t) ∧
    transformStr "http://localhost:5173" []
      "url(\"/public/logo.png\") url(/public/b.png)" "css" = none ∧
    transformStr "http://localhost:5173" []
      "src=\"/public/logo.png\"; import x from \"/public/b.svg\"" "js" = none := by
  refine ⟨?_, ?_, ?_, ?_, ?_, ?_, ?_, rfl, rfl⟩
  · intro s gs rest h
    exact grp_two_pre (matchAt_sound h).1 2 "/src/".toList rfl (by decide)
  · intro s gs rest h
    exact grp_two_pre (matchAt_sound h).1 2 "/src/".toList rfl (by decide)
  · intro s gs rest h
    exact grp_two_pre (matchAt_sound h).1 1 "/src/".toList rfl (by decide)
  · intro s gs rest h
    exact (grp_path_shape (matchAt_sound h).1 7 "/src/".toList nonQuoteP
      assetExtensions rfl rfl rfl rfl).1
  · intro s gs rest h
    exact (grp_path_shape (matchAt_sound h).1 5 "/src/".toList nonQuoteP
      assetExtensions rfl rfl rfl rfl).1
  · intro s gs rest h
    exact (grp_path_shape (matchAt_sound h).1 5 "/src/".toList nonQuoteP
      assetExtensions rfl rfl rfl rfl).1
  · intro s gs rest h
    exact (grp_path_shape (matchAt_sound h).1 5 "/src/".toList nonQuoteP
      assetExtensions rfl rfl rfl rfl).1

/-- Witness for C5 at a concrete match of the unquoted stylesheet pass. -/
theorem C5_absolute_outside_src_witness :
    ∃ t, grp ["url(".toList, "/src/".toList, "a.png".toList, ")".toList] 1 2 =
      "/src/".toList ++ t :=
  C5_absolute_outside_src.2.2.1 "url(/src/a.png)".toList
    ["url(".toList, "/src/".toList, "a.png".toList, ")".toList] [] (by decide)

/-- C6: in the script dialect, every pattern can only match a reference whose
path ends in `.` followed by one of the fixed asset extensions (compared
case-sensitively, in source order); concretely, an import of
`/src/data/config.json` is left unchanged and an upper-case extension
(`.PNG`) does not match, giving `changed=false`. -/
theorem C6_extension_gating :
    (∀ (s : List Char) (gs : List (List Char)) (rest : List Char),
      matchAt jsItemsImport s = some (gs, rest) →
      ∃ e ∈ assetExtensions, ∃ t, grp gs 7 10 = t ++ ('.' :: e)) ∧
    (∀ (s : List Char) (gs : List (List Char)) (rest : List Char),
      matchAt jsItemsDynamic s = some (gs, rest) →
      ∃ e ∈ assetExtensions, ∃ t, grp gs 5 8 = t ++ ('.' :: e)) ∧
    (∀ (s : List Char) (gs : List (List Char)) (rest : List Char),
      matchAt jsItemsAttr s = some (gs, rest) →
      ∃ e ∈ assetExtensions, ∃ t, grp gs 5 8 = t ++ ('.' :: e)) ∧
    (∀ (s : List Char) (gs : List (List Char)) (rest : List Char),
      matchAt jsItemsProp s = some (gs, rest) →
      ∃ e ∈ assetExtensions, ∃ t, grp gs 5 8 = t ++ ('.' :: e)) ∧
    (∀ (a s : List Char) (gs : List (List Char)) (rest : List Char),
      matchAt (aliasJsItemsImport a) s = some (gs, rest) →
      ∃ e ∈ assetExtensions, ∃ t, grp gs 8 10 = t ++ ('.' :: e)) ∧
    transformStr "http://localhost:5173" []
      "import cfg from \"/src/data/config.json\"" "js" = none ∧
    transformStr "http://localhost:5173" []
      "import a from \"/src/a.PNG\"" "js" = none := by
  refine ⟨?_, ?_, ?_, ?_, ?_, rfl, rfl⟩
  · intro s gs rest h
    exact (grp_path_shape (matchAt_sound h).1 7 "/src/".toList nonQuoteP
      assetExtensions rfl rfl rfl rfl).2
  · intro s gs rest h
    exact (grp_path_shape (matchAt_sound h).1 5 "/src/".toList nonQuoteP
      assetExtensions rfl rfl rfl rfl).2
  · intro s gs rest h
    exact (grp_path_shape (matchAt_sound h).1 5 "/src/".toList nonQuoteP
      assetExtensions rfl rfl rfl rfl).2
  · intro s gs rest h
    exact (grp_path_shape (matchAt_sound h).1 5 "/src/".toList nonQuoteP
      assetExtensions rfl rfl rfl rfl).2
  · intro a s gs rest h
    exact grp_ext3 (matchAt_sound h).1 8 nonQuoteP assetExtensions rfl rfl rfl

/-- Witness for C6 at a concrete match of the static-import pattern. -/
theorem C6_extension_gating_witness :
    ∃ e ∈ assetExtensions, ∃ t,
      grp ["import".toList, " ".toList, "a".toList, " ".toList, "from".toList,
        " ".toList, "\"".toList, "/src/".toList, "a".toList, ".".toList,
        "svg".toList, "\"".toList] 7 10 = t ++ ('.' :: e) :=
  C6_extension_gating.1 "import a from \"/src/a.svg\"".toList
    ["import".toList, " ".toList, "a".toList, " ".toList, "from".toList,
      " ".toList, "\"".toList, "/src/".toList, "a".toList, ".".toList,
      "svg".toList, "\"".toList] [] (by decide)

/-- C7: script-dialect alias rewriting is a single pattern, the static-import
shape — every successful match of it starts with the `import` keyword — and
concretely an alias-prefixed path in a dynamic import, a markup attribute or
an object-property value is never rewritten, while the static-import shape
is. -/
theorem C7_alias_import_shape_only :
    (∀ (dev a path : List Char),
      (aliasJsPatterns dev a path).map RPattern.items = [aliasJsItemsImport a]) ∧
    (∀ (a s : List Char) (gs : List (List Char)) (rest : List Char),
      matchAt (aliasJsItemsImport a) s = some (gs, rest) →
      ∃ t, gs.flatten = "import".toList ++ t) ∧
    transformStr "http://localhost:5173" [("@img", "/src/img")]
      "import(\"@img/a.png\")" "js" = none ∧
    transformStr "http://localhost:5173" [("@img", "/src/img")]
      "src=\"@img/a.png\"" "js" = none ∧
    transformStr "http://localhost:5173" [("@img", "/src/img")]
      "icon: \"@img/a.png\"" "js" = none ∧
    transformStr "http://localhost:5173" [("@img", "/src/img")]
      "import a from \"@img/a.png\"" "js" =
      some ⟨"import a from \"http://localhost:5173/src/img/a.png\"", none⟩ := by
  refine ⟨fun dev a path => rfl, ?_, rfl, rfl, rfl, rfl⟩
  intro a s gs rest h
  have hf := (matchAt_sound h).1
  simp only [aliasJsItemsImport] at hf
  exact flatten_head_lit hf

/-- Witness for C7 at a concrete match of the alias static-import pattern. -/
theorem C7_alias_import_shape_only_witness :
    ∃ t, (["import".toList, " ".toList, "a".toList, " ".toList, "from".toList,
      " ".toList, "\"".toList, "@img/".toList, "a".toList, ".".toList,
      "png".toList, "\"".toList] : List (List Char)).flatten =
      "import".toList ++ t :=
  C7_alias_import_shape_only.2.1 "@img".toList
    "import a from \"@img/a.png\"".toList
    ["import".toList, " ".toList, "a".toList, " ".toList, "from".toList,
      " ".toList, "\"".toList, "@img/".toList, "a".toList, ".".toList,
      "png".toList, "\"".toList] [] (by decide)

/-- C8, counterexample.  The escaped-quote pass uses two independent `["']`
classes, so the opening and closing escaped quotes need not match: the input
`url(\"/src/a.png\')` — opening `\"`, closing `\'` — is rewritten. -/
theorem C8_counterexample :
    transformStr "http://localhost:5173" []
      ("url(\\\"/src/a.png\\" ++ sqS ++ ")") "css" =
      some ⟨"url(\\\"http://localhost:5173/src/a.png\\" ++ sqS ++ ")", none⟩ := rfl

/-- C8, amended: in every successful match of the escaped-quote pass the
opening and the closing escaped quote are each one of `"` or `'` but are not
required to be equal; the path piece contains no quote of either kind and no
backslash (it runs until the first quote or backslash); and the rewrite
preserves the escaping, keeping the backslash-quote pairs around the
base-URL-prefixed path.  The mismatched combination is concretely
matchable. -/
theorem C8_escaped_quote_pass :
    (∀ (dev s : List Char) (gs : List (List Char)) (rest : List Char),
      matchAt srcItemsEscaped s = some (gs, rest) →
      (grp gs 1 1 = [dqChar] ∨ grp gs 1 1 = [sqChar]) ∧
      (grp gs 5 5 = [dqChar] ∨ grp gs 5 5 = [sqChar]) ∧
      (∀ c ∈ grp gs 3 3, escPathP c = true) ∧
      srcEscapedRepl dev gs =
        "url(".toList ++ [bsChar] ++ grp gs 1 1 ++ dev ++ grp gs 2 3 ++
          [bsChar] ++ grp gs 5 5 ++ ")".toList) ∧
    matchAt srcItemsEscaped ("url(\\\"/src/a.png\\" ++ sqS ++ ")").toList =
      some (["url(\\".toList, [dqChar], "/src/".toList, "a.png".toList,
        "\\".toList, [sqChar], ")".toList], []) := by
  constructor
  · intro dev s gs rest h
    have hf := (matchAt_sound h).1
    obtain ⟨hl1, hm1⟩ := forall₂_get_itemMatch hf 1 (RItem.cls quoteP) rfl
    obtain ⟨hl3, hm3⟩ := forall₂_get_itemMatch hf 3 (RItem.plus escPathP) rfl
    obtain ⟨hl5, hm5⟩ := forall₂_get_itemMatch hf 5 (RItem.cls quoteP) rfl
    obtain ⟨c1, hc1, hgc1⟩ := hm1
    obtain ⟨c5, hc5, hgc5⟩ := hm5
    obtain ⟨hne3, hall3⟩ := hm3
    have hq1 : c1 = dqChar ∨ c1 = sqChar := by
      simp only [quoteP, Bool.or_eq_true, beq_iff_eq] at hc1
      exact hc1
    have hq5 : c5 = dqChar ∨ c5 = sqChar := by
      simp only [quoteP, Bool.or_eq_true, beq_iff_eq] at hc5
      exact hc5
    have e1 : grp gs 1 1 = [c1] := by
      rw [grp_one gs 1 hl1, hgc1]
      exact List.append_nil _
    have e5 : grp gs 5 5 = [c5] := by
      rw [grp_one gs 5 hl5, hgc5]
      exact List.append_nil _
    refine ⟨?_, ?_, ?_, ?_⟩
    · rw [e1]
      rcases hq1 with rfl | rfl
      · exact Or.inl rfl
      · exact Or.inr rfl
    · rw [e5]
      rcases hq5 with rfl | rfl
      · exact Or.inl rfl
      · exact Or.inr rfl
    · intro c hc
      rw [grp_one gs 3 hl3] at hc
      simp only [List.append_nil] at hc
      exact hall3 c hc
    · simp only [srcEscapedRepl]
      rw [show ("url(\\".toList : List Char) = "url(".toList ++ [bsChar] from rfl,
        show ("\\".toList : List Char) = [bsChar] from rfl]
  · rfl

/-- Witness for C8 at the concrete mismatched-quote match: the opening quote
piece is `"` and the closing quote piece is `'`. -/
theorem C8_escaped_quote_pass_witness :
    (grp ["url(\\".toList, [dqChar], "/src/".toList, "a.png".toList,
      "\\".toList, [sqChar], ")".toList] 1 1 = [dqChar] ∨
    grp ["url(\\".toList, [dqChar], "/src/".toList, "a.png".toList,
      "\\".toList, [sqChar], ")".toList] 1 1 = [sqChar]) :=
  (C8_escaped_quote_pass.1 "http://localhost:5173".toList
    ("url(\\\"/src/a.png\\" ++ sqS ++ ")").toList _ _
    C8_escaped_quote_pass.2).1

/-- C10: dialect isolation.  A dialect value other than `css` or `js` yields
no change; every stylesheet-dialect pattern (absolute or alias, quoted,
escaped or unquoted) can only match text starting with `url(`, so stylesheet
invocations substitute only inside `url(...)`; and concretely the stylesheet
dialect leaves import/dynamic-import/attribute/property shapes unchanged
while the script dialect leaves bare `url(...)` references unchanged. -/
theorem C10_dialect_isolation :
    (∀ (dev : String) (aps : List (String × String)) (code type : String),
      type ≠ "css" → type ≠ "js" → transformCore dev aps code type = none) ∧
    (∀ (s : List Char) (gs : List (List Char)) (rest : List Char),
      matchAt srcItemsEscaped s = some (gs, rest) →
      ∃ t, gs.flatten = "url(".toList ++ t) ∧
    (∀ (s : List Char) (gs : List (List Char)) (rest : List Char),
      matchAt srcItemsPlain s = some (gs, rest) →
      ∃ t, gs.flatten = "url(".toList ++ t) ∧
    (∀ (s : List Char) (gs : List (List Char)) (rest : List Char),
      matchAt srcItemsUnquoted s = some (gs, rest) →
      ∃ t, gs.flatten = "url(".toList ++ t) ∧
    (∀ (a s : List Char) (gs : List (List Char)) (rest : List Char),
      matchAt (aliasItemsQuoted a) s = some (gs, rest) →
      ∃ t, gs.flatten = "url(".toList ++ t) ∧
    (∀ (a s : List Char) (gs : List (List Char)) (rest : List Char),
      matchAt (aliasItemsUnquoted a) s = some (gs, rest) →
      ∃ t, gs.flatten = "url(".toList ++ t) ∧
    transformStr "http://localhost:5173" [("@img", "/src/img")]
      "import a from \"/src/a.svg\";import(\"/src/b.png\");src=\"/src/c.gif\";icon: \"/src/d.webp\""
      "css" = none ∧
    transformStr "http://localhost:5173" [("@img", "/src/img")]
      "url(\"/src/a.png\") url(/src/b.png)" "js" = none := by
  refine ⟨?_, ?_, ?_, ?_, ?_, ?_, rfl, rfl⟩
  · intro dev aps code type h1 h2
    simp only [transformCore, runPasses, passList, if_neg h1, if_neg h2,
      List.foldl_nil]
    rfl
  · intro s gs rest h
    have hf := (matchAt_sound h).1
    simp only [srcItemsEscaped] at hf
    obtain ⟨t, ht⟩ := flatten_head_lit hf
    exact ⟨bsChar :: t, by rw [ht]; rfl⟩
  · intro s gs rest h
    have hf := (matchAt_sound h).1
    simp only [srcItemsPlain] at hf
    exact flatten_head_lit hf
  · intro s gs rest h
    have hf := (matchAt_sound h).1
    simp only [srcItemsUnquoted] at hf
    exact flatten_head_lit hf
  · intro a s gs rest h
    have hf := (matchAt_sound h).1
    simp only [aliasItemsQuoted] at hf
    exact flatten_head_lit hf
  · intro a s gs rest h
    have hf := (matchAt_sound h).1
    simp only [aliasItemsUnquoted] at hf
    obtain ⟨t, ht⟩ := flatten_head_lit hf
    exact ⟨a ++ ("/".toList ++ t), by rw [ht]; simp [List.append_assoc]⟩

/-- Witness for C10: an unknown dialect value returns `null`, and a concrete
stylesheet-pass match indeed starts with `url(`. -/
theorem C10_dialect_isolation_witness :
    transformCore "http://localhost:5173" [] "url(/src/a.png)" "html" = none ∧
    (∃ t, (["url(".toList, "/src/".toList, "a.png".toList, ")".toList] :
      List (List Char)).flatten = "url(".toList ++ t) :=
  ⟨C10_dialect_isolation.1 "http://localhost:5173" [] "url(/src/a.png)" "html"
      (by decide) (by decide),
   C10_dialect_isolation.2.2.2.1 "url(/src/a.png)".toList
      ["url(".toList, "/src/".toList, "a.png".toList, ")".toList] [] (by decide)⟩
